import Mathlib

/-!
Shallow embedding of the nexus-notification-service core
(notification.service.ts, preferences.service.ts, webhook.service.ts,
email.service.ts) and proofs of the frozen claims about it.

Modelling conventions:
* The single SQLite database is one `AppState` record holding every table
  as a list of rows, plus a fresh-id counter (standing for `nanoid()`)
  and a clock counter (standing for `datetime('now')`; it advances by one
  tick wherever the source takes a new timestamp inside a retry loop).
* JavaScript `x || d` on an optional numeric parameter is embedded by
  `jsOr`: absent or `0` (the only falsy number reachable here) gives the
  default, any other integer is kept.  `req.channels || ['in_app']` is
  embedded on `Option (List Channel)`: an explicitly supplied empty array
  is truthy in JS and therefore kept verbatim.
* `JSON.parse` of a stored preference column is embedded by
  `jsonParseStringArray`, an executable parser for JSON arrays of plain
  (escape-free) string literals - exactly the grammar `JSON.stringify`
  produces for the validated channel arrays this service writes.  A
  string outside that grammar (for example the literal text not-json used
  by the repository's own test) makes `JSON.parse` throw, which the
  embedding renders as `none`; an aborted read (a thrown exception)
  surfaces as `none` at the service level.
* HTTP `fetch` during webhook delivery is embedded by an environment
  `Nat → FetchOutcome` giving, per attempt index, either a response with
  a status code or a transport error (the thrown/timeout case).
-/

/-- Delivery channels of a notification (type NotificationChannel in the
source). -/
inductive Channel
  | in_app
  | email
  | webhook
deriving DecidableEq, Repr

/-- The closed set of notification event types. -/
inductive NotificationType
  | task_assigned
  | task_status_changed
  | comment_added
  | project_invited
  | task_due_soon
deriving DecidableEq, Repr

instance : BEq Channel := ⟨fun a b => decide (a = b)⟩
instance : BEq NotificationType := ⟨fun a b => decide (a = b)⟩

instance : LawfulBEq Channel := ⟨fun h => of_decide_eq_true h, by intro a; simp [BEq.beq]⟩
instance : LawfulBEq NotificationType := ⟨fun h => of_decide_eq_true h, by intro a; simp [BEq.beq]⟩

/-- Row of the notifications table (interface NotificationRow). -/
structure NotificationRow where
  id : Nat
  user_id : String
  type : NotificationType
  channel : Channel
  title : String
  body : String
  metadata : List (String × String)
  read : Bool
  created_at : Nat
deriving DecidableEq, Repr

/-- Row of the notification_preferences table; the five per-type columns
hold raw JSON text, as in the database. -/
structure PreferencesRow where
  user_id : String
  task_assigned : String
  task_status_changed : String
  comment_added : String
  project_invited : String
  task_due_soon : String
deriving DecidableEq, Repr

/-- Status column of a webhook_deliveries row. -/
inductive DeliveryStatus
  | pending
  | delivered
  | failed
deriving DecidableEq, Repr

instance : BEq DeliveryStatus := ⟨fun a b => decide (a = b)⟩

/-- Row of the webhooks table (interface WebhookRow).  The events column is
stored as JSON in the database but only ever written from a validated
array, so it is embedded already parsed. -/
structure WebhookRow where
  id : Nat
  user_id : String
  url : String
  secret : String
  events : List NotificationType
  active : Bool
  created_at : Nat
deriving DecidableEq, Repr

/-- Row of the webhook_deliveries table (interface DeliveryRow). -/
structure DeliveryRow where
  id : Nat
  webhook_id : Nat
  event_type : NotificationType
  payload : String
  status : DeliveryStatus
  response_code : Option Nat
  attempts : Nat
  last_attempt_at : Option Nat
  created_at : Nat
deriving DecidableEq, Repr

/-- Row of the sent_emails table (interface SentEmailRow). -/
structure SentEmailRow where
  id : Nat
  to_email : String
  subject : String
  body : String
  created_at : Nat
deriving DecidableEq, Repr

/-- The whole SQLite database plus the id and clock generators. -/
structure AppState where
  notifications : List NotificationRow
  notification_preferences : List PreferencesRow
  webhooks : List WebhookRow
  webhook_deliveries : List DeliveryRow
  sent_emails : List SentEmailRow
  nextId : Nat
  now : Nat
deriving DecidableEq, Repr

/-- JavaScript on an optional integer parameter: absent or zero (falsy)
yields the default, anything else is kept. -/
def jsOr (v : Option Int) (d : Int) : Int :=
  match v with
  | none => d
  | some x => if x = 0 then d else x

/-! JSON parsing of a stored channel array (the semantics of JSON.parse on
the grammar this service writes to preference columns). -/

/-- Consumes characters of a string literal up to the closing quote;
returns the content and the rest of the input.  Fails (the parse throws)
when the input ends before a closing quote. -/
def readStringLit : List Char → Option (List Char × List Char)
  | [] => none
  | c :: cs =>
      if c = '"' then some ([], cs)
      else
        match readStringLit cs with
        | some (s, r) => some (c :: s, r)
        | none => none

/-- Reads the comma-separated string elements of a JSON array, after the
opening bracket, up to and including the closing bracket, which must end
the input. -/
def readElems : Nat → List Char → Option (List String)
  | 0, _ => none
  | fuel + 1, cs =>
      match cs with
      | '"' :: cs2 =>
          match readStringLit cs2 with
          | none => none
          | some (content, rest) =>
              match rest with
              | ',' :: rest2 =>
                  match readElems fuel rest2 with
                  | some items => some (String.mk content :: items)
                  | none => none
              | [']'] => some [String.mk content]
              | _ => none
      | _ => none

/-- Result of JSON.parse on a column that is expected to hold an array of
strings: the array on success, `none` when the text is not such an array
(in the source, a thrown SyntaxError). -/
def jsonParseStringArray (s : String) : Option (List String) :=
  match s.data with
  | '[' :: ']' :: [] => some []
  | '[' :: rest => readElems (s.length + 1) rest
  | _ => none

/-! Preferences service (preferences.service.ts). -/

/-- Parsed preferences object (interface NotificationPreferences); the
source casts the parsed JSON without runtime validation, so each field is
a list of raw strings. -/
structure NotificationPreferences where
  userId : String
  taskAssigned : List String
  taskStatusChanged : List String
  commentAdded : List String
  projectInvited : List String
  taskDueSoon : List String
deriving DecidableEq, Repr

/-- The userId-less default preference fields. -/
structure PrefFields where
  taskAssigned : List String
  taskStatusChanged : List String
  commentAdded : List String
  projectInvited : List String
  taskDueSoon : List String
deriving DecidableEq, Repr

/-- Hard-coded per-type default channel sets (const DEFAULT_PREFERENCES). -/
def DEFAULT_PREFERENCES : PrefFields :=
  { taskAssigned := ["in_app"]
    taskStatusChanged := ["in_app"]
    commentAdded := ["in_app"]
    projectInvited := ["in_app", "email"]
    taskDueSoon := ["in_app", "email"] }

/-- Embedding of function rowToPreferences: five sequential JSON.parse
calls; a throw on any column aborts the whole conversion (`none`). -/
def rowToPreferences (row : PreferencesRow) : Option NotificationPreferences := do
  let a ← jsonParseStringArray row.task_assigned
  let b ← jsonParseStringArray row.task_status_changed
  let c ← jsonParseStringArray row.comment_added
  let d ← jsonParseStringArray row.project_invited
  let e ← jsonParseStringArray row.task_due_soon
  pure { userId := row.user_id, taskAssigned := a, taskStatusChanged := b,
         commentAdded := c, projectInvited := d, taskDueSoon := e }

/-- Embedding of PreferencesService.get: a missing row yields the default
fields; a present row goes through rowToPreferences (and an unparseable
column therefore aborts the read, yielding `none`). -/
def prefsGet (st : AppState) (userId : String) : Option NotificationPreferences :=
  match st.notification_preferences.find? (fun r => r.user_id == userId) with
  | none =>
      some { userId := userId
             taskAssigned := DEFAULT_PREFERENCES.taskAssigned
             taskStatusChanged := DEFAULT_PREFERENCES.taskStatusChanged
             commentAdded := DEFAULT_PREFERENCES.commentAdded
             projectInvited := DEFAULT_PREFERENCES.projectInvited
             taskDueSoon := DEFAULT_PREFERENCES.taskDueSoon }
  | some row => rowToPreferences row

/-! Notification service (notification.service.ts). -/

/-- Input of NotificationService.send (interface SendNotificationRequest). -/
structure SendNotificationRequest where
  userId : String
  type : NotificationType
  title : String
  body : String
  metadata : Option (List (String × String)) := none
  channels : Option (List Channel) := none

/-- Pagination query parameters, both optional. -/
structure PaginationQuery where
  page : Option Int := none
  pageSize : Option Int := none

/-- Result shape of NotificationService.list. -/
structure PaginatedNotifications where
  items : List NotificationRow
  total : Nat
  page : Int
  pageSize : Int
  hasMore : Bool
deriving Repr

/-- One INSERT of the send loop body: a fresh-id row with read = 0 and
created_at = now, appended to the notifications table. -/
def insertNotification (st : AppState) (req : SendNotificationRequest)
    (c : Channel) : NotificationRow × AppState :=
  let row : NotificationRow :=
    { id := st.nextId
      user_id := req.userId
      type := req.type
      channel := c
      title := req.title
      body := req.body
      metadata := match req.metadata with | some m => m | none => []
      read := false
      created_at := st.now }
  (row, { st with notifications := st.notifications ++ [row],
                  nextId := st.nextId + 1 })

/-- The for-loop of NotificationService.send over the channel list. -/
def sendLoop (req : SendNotificationRequest) :
    List Channel → AppState → List NotificationRow × AppState
  | [], st => ([], st)
  | c :: cs, st =>
      let (row, st1) := insertNotification st req c
      let (rows, st2) := sendLoop req cs st1
      (row :: rows, st2)

/-- Embedding of NotificationService.send: channels = req.channels or
else the literal ['in_app'] (stored preferences are not consulted); one
row inserted per channel; the created rows are returned. -/
def notificationSend (st : AppState) (req : SendNotificationRequest) :
    List NotificationRow × AppState :=
  let channels := match req.channels with
    | some cs => cs
    | none => [Channel.in_app]
  sendLoop req channels st

/-- ORDER BY created_at DESC comparison used by list. -/
def newestFirst (a b : NotificationRow) : Bool :=
  b.created_at ≤ a.created_at

/-- Embedding of NotificationService.list: clamp page and pageSize, count
the user's rows, and page through them ordered newest-first. -/
def notificationList (st : AppState) (userId : String)
    (q : PaginationQuery) : PaginatedNotifications :=
  let page : Int := max 1 (jsOr q.page 1)
  let pageSize : Int := min 100 (max 1 (jsOr q.pageSize 20))
  let offset : Int := (page - 1) * pageSize
  let userRows := st.notifications.filter (fun r => r.user_id == userId)
  let total := userRows.length
  let rows := ((userRows.mergeSort newestFirst).drop offset.toNat).take pageSize.toNat
  { items := rows
    total := total
    page := page
    pageSize := pageSize
    hasMore := decide (offset + pageSize < (total : Int)) }

/-- Embedding of NotificationService.markAsRead: SELECT by id and user_id;
when absent return null and touch nothing; when present UPDATE read = 1
WHERE id = ? (the source update filters on id alone) and return the
selected row with read forced to true. -/
def markAsRead (st : AppState) (notificationId : Nat) (userId : String) :
    Option NotificationRow × AppState :=
  match st.notifications.find?
      (fun r => r.id == notificationId && r.user_id == userId) with
  | none => (none, st)
  | some row =>
      let rows := st.notifications.map
        (fun r => if r.id == notificationId then { r with read := true } else r)
      (some { row with read := true }, { st with notifications := rows })

/-- Embedding of NotificationService.markAllAsRead: UPDATE read = 1 WHERE
user_id = ? AND read = 0; returns the number of changed rows. -/
def markAllAsRead (st : AppState) (userId : String) : Nat × AppState :=
  let changed := (st.notifications.filter
    (fun r => r.user_id == userId && r.read == false)).length
  let rows := st.notifications.map
    (fun r => if r.user_id == userId && r.read == false
              then { r with read := true } else r)
  (changed, { st with notifications := rows })

/-- Embedding of NotificationService.getUnreadCount. -/
def getUnreadCount (st : AppState) (userId : String) : Nat :=
  (st.notifications.filter
    (fun r => r.user_id == userId && r.read == false)).length

/-! Email service (email.service.ts). -/

/-- Embedding of EmailService.send: append one sent_emails row and return
it (the console log is outside the model). -/
def emailSend (st : AppState) (toEmail subject body : String) :
    SentEmailRow × AppState :=
  let row : SentEmailRow :=
    { id := st.nextId, to_email := toEmail, subject := subject,
      body := body, created_at := st.now }
  (row, { st with sent_emails := st.sent_emails ++ [row],
                  nextId := st.nextId + 1 })

/-! Webhook service (webhook.service.ts). -/

/-- Outcome of one fetch call: an HTTP response with a status code, or a
transport error / timeout (the thrown case). -/
inductive FetchOutcome
  | response (status : Nat)
  | failure
deriving DecidableEq, Repr

/-- The response.ok predicate of the fetch API: status in [200, 299]. -/
def responseOk (status : Nat) : Bool :=
  200 ≤ status && status < 300

/-- The maxAttempts constant of WebhookService.attemptDelivery. -/
def maxAttempts : Nat := 3

/-- Embedding of WebhookService.getById: SELECT by id and owning user. -/
def webhookGetById (st : AppState) (webhookId : Nat) (userId : String) :
    Option WebhookRow :=
  st.webhooks.find? (fun r => r.id == webhookId && r.user_id == userId)

/-- Partial update request (interface UpdateWebhookRequest). -/
structure UpdateWebhookRequest where
  url : Option String := none
  secret : Option String := none
  events : Option (List NotificationType) := none
  active : Option Bool := none

/-- Effect of the assembled UPDATE statement on one row: each supplied
field replaces the stored one, omitted fields are untouched. -/
def applyWebhookUpdate (req : UpdateWebhookRequest) (r : WebhookRow) :
    WebhookRow :=
  { r with
    url := match req.url with | some u => u | none => r.url
    secret := match req.secret with | some s => s | none => r.secret
    events := match req.events with | some e => e | none => r.events
    active := match req.active with | some a => a | none => r.active }

/-- Embedding of WebhookService.update: a failed ownership lookup returns
null before any UPDATE runs; otherwise the UPDATE (scoped by id and
user_id) is applied and the row re-read. -/
def webhookUpdate (st : AppState) (webhookId : Nat) (userId : String)
    (req : UpdateWebhookRequest) : Option WebhookRow × AppState :=
  match webhookGetById st webhookId userId with
  | none => (none, st)
  | some _ =>
      let webhooks := st.webhooks.map
        (fun r => if r.id == webhookId && r.user_id == userId
                  then applyWebhookUpdate req r else r)
      let st1 := { st with webhooks := webhooks }
      (webhookGetById st1 webhookId userId, st1)

/-- Embedding of WebhookService.delete: DELETE scoped by id and user_id;
returns whether any row was deleted. -/
def webhookDelete (st : AppState) (webhookId : Nat) (userId : String) :
    Bool × AppState :=
  let remaining := st.webhooks.filter
    (fun r => !(r.id == webhookId && r.user_id == userId))
  (decide (remaining.length < st.webhooks.length),
   { st with webhooks := remaining })

/-- ORDER BY created_at DESC comparison for delivery rows. -/
def deliveryNewestFirst (a b : DeliveryRow) : Bool :=
  b.created_at ≤ a.created_at

/-- Embedding of WebhookService.getDeliveries: an ownership check first;
on failure an empty list, otherwise the webhook's delivery rows newest
first. -/
def webhookGetDeliveries (st : AppState) (webhookId : Nat)
    (userId : String) : List DeliveryRow :=
  match webhookGetById st webhookId userId with
  | none => []
  | some _ =>
      (st.webhook_deliveries.filter
        (fun d => d.webhook_id == webhookId)).mergeSort deliveryNewestFirst

/-- Effect of one UPDATE of the retry loop on the targeted delivery row:
both the response branch and the catch branch set attempts and the
last-attempt timestamp; the response branch also records the status code;
the status becomes delivered on 2xx, failed when the attempt budget is
exhausted, pending otherwise. -/
def applyAttempt (nowT attempt : Nat) (outcome : FetchOutcome)
    (d : DeliveryRow) : DeliveryRow :=
  match outcome with
  | .response status =>
      { d with attempts := attempt + 1
               response_code := some status
               last_attempt_at := some nowT
               status := if responseOk status then .delivered
                         else if maxAttempts ≤ attempt + 1 then .failed
                         else .pending }
  | .failure =>
      { d with attempts := attempt + 1
               last_attempt_at := some nowT
               status := if maxAttempts ≤ attempt + 1 then .failed
                         else .pending }

/-- One UPDATE of the retry loop, applied to the delivery row with the
given id; the clock advances one tick per attempt. -/
def recordAttempt (st : AppState) (deliveryId : Nat) (attempt : Nat)
    (outcome : FetchOutcome) : AppState :=
  { st with
    webhook_deliveries := st.webhook_deliveries.map
      (fun d => if d.id == deliveryId
                then applyAttempt st.now attempt outcome d else d)
    now := st.now + 1 }

/-- The bounded for-loop of WebhookService.attemptDelivery, unrolled over
a remaining-iterations fuel; returns the final state and the number of
HTTP attempts actually made.  A 2xx response returns immediately; any
other outcome records the attempt and continues (the inter-attempt
backoff sleeps are outside the state model). -/
def attemptGo (env : Nat → FetchOutcome) (deliveryId : Nat) :
    Nat → Nat → AppState → AppState × Nat
  | _, 0, st => (st, 0)
  | attempt, remaining + 1, st =>
      let outcome := env attempt
      let st1 := recordAttempt st deliveryId attempt outcome
      match outcome with
      | .response status =>
          if responseOk status then (st1, 1)
          else
            let p := attemptGo env deliveryId (attempt + 1) remaining st1
            (p.1, p.2 + 1)
      | .failure =>
          let p := attemptGo env deliveryId (attempt + 1) remaining st1
          (p.1, p.2 + 1)

/-- Embedding of WebhookService.attemptDelivery: up to maxAttempts
iterations starting at attempt 0. -/
def attemptDelivery (env : Nat → FetchOutcome) (st : AppState)
    (deliveryId : Nat) : AppState × Nat :=
  attemptGo env deliveryId 0 maxAttempts st

/-- The INSERT of WebhookService.deliver: a fresh delivery row with
status pending and attempts 0. -/
def newDeliveryRow (st : AppState) (webhookId : Nat)
    (eventType : NotificationType) (payload : String) : DeliveryRow :=
  { id := st.nextId
    webhook_id := webhookId
    event_type := eventType
    payload := payload
    status := .pending
    response_code := none
    attempts := 0
    last_attempt_at := none
    created_at := st.now }

/-- The per-webhook body of WebhookService.deliver: webhooks not
subscribed to the event type are skipped with continue; a subscribed one
gets a pending delivery row inserted and the delivery attempted. -/
def deliverLoop (env : String → Nat → FetchOutcome)
    (eventType : NotificationType) (payload : String) :
    List WebhookRow → AppState → AppState
  | [], st => st
  | w :: ws, st =>
      if w.events.contains eventType then
        let deliveryId := st.nextId
        let row := newDeliveryRow st w.id eventType payload
        let st1 := { st with
          webhook_deliveries := st.webhook_deliveries ++ [row]
          nextId := st.nextId + 1 }
        let st2 := (attemptDelivery (env w.url) st1 deliveryId).1
        deliverLoop env eventType payload ws st2
      else
        deliverLoop env eventType payload ws st

/-- Embedding of WebhookService.deliver: SELECT the user's active
webhooks, then run the loop over them. -/
def webhookDeliver (env : String → Nat → FetchOutcome) (st : AppState)
    (eventType : NotificationType) (payload : String) (userId : String) :
    AppState :=
  deliverLoop env eventType payload
    (st.webhooks.filter (fun r => r.user_id == userId && r.active)) st

/-! Helper lemmas. -/

theorem find?_eq_some_of_unique {α} {p : α → Bool} {l : List α} {r : α}
    (hr : r ∈ l) (hpr : p r = true)
    (huniq : ∀ x ∈ l, p x = true → x = r) :
    l.find? p = some r := by
  induction l with
  | nil => cases hr
  | cons a l ih =>
      by_cases hpa : p a = true
      · have ha : a = r := huniq a (List.mem_cons_self a l) hpa
        subst ha
        simp [List.find?_cons, hpa]
      · have hpa' : p a = false := by simpa using hpa
        have hr' : r ∈ l := by
          rcases List.mem_cons.1 hr with h | h
          · exact absurd (h ▸ hpr) (by simp [hpa'])
          · exact h
        simp only [List.find?_cons, hpa']
        exact ih hr' (fun x hx hpx => huniq x (List.mem_cons_of_mem a hx) hpx)

theorem forall₂_map_self {α} {R : α → α → Prop} (g : α → α) (l : List α)
    (h : ∀ x, R x (g x)) : List.Forall₂ R l (l.map g) := by
  rw [List.forall₂_map_right_iff]
  exact List.forall₂_same.2 fun x _ => h x

theorem sendLoop_spec (req : SendNotificationRequest) :
    ∀ (cs : List Channel) (st : AppState),
      (sendLoop req cs st).2.notifications =
          st.notifications ++ (sendLoop req cs st).1 ∧
      (∀ r ∈ (sendLoop req cs st).1, r.read = false ∧
          r.user_id = req.userId ∧ r.type = req.type) ∧
      List.map (fun r => r.channel) (sendLoop req cs st).1 = cs ∧
      (sendLoop req cs st).2.sent_emails = st.sent_emails ∧
      (sendLoop req cs st).2.webhook_deliveries = st.webhook_deliveries ∧
      (sendLoop req cs st).2.notification_preferences =
          st.notification_preferences := by
  intro cs
  induction cs with
  | nil => intro st; simp [sendLoop]
  | cons c cs ih =>
      intro st
      obtain ⟨h1, h2, h3, h4, h5, h6⟩ :=
        ih ((insertNotification st req c).2)
      refine ⟨?_, ?_, ?_, ?_, ?_, ?_⟩
      · simp only [sendLoop]
        rw [h1]
        simp [insertNotification, List.append_assoc]
      · intro r hr
        simp only [sendLoop, List.mem_cons] at hr
        rcases hr with rfl | hr
        · exact ⟨rfl, rfl, rfl⟩
        · exact h2 r hr
      · simp only [sendLoop, List.map_cons]
        rw [h3]
        simp [insertNotification]
      · simp only [sendLoop]
        rw [h4]
        simp [insertNotification]
      · simp only [sendLoop]
        rw [h5]
        simp [insertNotification]
      · simp only [sendLoop]
        rw [h6]
        simp [insertNotification]

/-- C8: markAllAsRead returns exactly the number of the user's records
that were unread immediately before the call (0 is a valid return), and
immediately afterwards getUnreadCount for that user returns 0. -/
theorem markAllAsRead_count_and_unread_zero (st : AppState) (u : String) :
    (markAllAsRead st u).1 =
      (st.notifications.filter
        (fun r => r.user_id == u && r.read == false)).length ∧
    getUnreadCount (markAllAsRead st u).2 u = 0 := by
  constructor
  · rfl
  · unfold getUnreadCount markAllAsRead
    rw [List.length_eq_zero, List.filter_eq_nil_iff]
    intro a ha
    rcases List.mem_map.1 ha with ⟨x, hx, rfl⟩
    by_cases hcond : (x.user_id == u && x.read == false) = true
    · rw [if_pos hcond]
      simp
    · rw [if_neg hcond]
      exact hcond

theorem markAsRead_found (st : AppState) (nid : Nat) (u : String)
    {r : NotificationRow} (hr : r ∈ st.notifications) (hid : r.id = nid)
    (hu : r.user_id = u)
    (hnd : (st.notifications.map NotificationRow.id).Nodup) :
    st.notifications.find? (fun x => x.id == nid && x.user_id == u) =
      some r := by
  apply find?_eq_some_of_unique hr
  · simp [hid, hu]
  · intro x hx hpx
    rw [Bool.and_eq_true, beq_iff_eq, beq_iff_eq] at hpx
    exact List.inj_on_of_nodup_map hnd hx hr (by rw [hpx.1, hid])

/-- C9: when no record with the given id belongs to the calling user,
markAsRead returns null and leaves the whole state (in particular every
record's read flag) unchanged; when the record does belong to the caller,
it returns the record with the read flag set, the stored row with that id
ends up read, and all other rows are untouched. -/
theorem markAsRead_ownership_contract (st : AppState) (nid : Nat)
    (u : String) :
    ((∀ r ∈ st.notifications, r.id = nid → r.user_id ≠ u) →
        markAsRead st nid u = (none, st)) ∧
    (∀ r ∈ st.notifications, r.id = nid → r.user_id = u →
        (st.notifications.map NotificationRow.id).Nodup →
        (markAsRead st nid u).1 = some { r with read := true } ∧
        (∀ x ∈ (markAsRead st nid u).2.notifications,
            x.id = nid → x.read = true) ∧
        (∀ x ∈ st.notifications, x.id ≠ nid →
            x ∈ (markAsRead st nid u).2.notifications)) := by
  constructor
  · intro h
    have hnone : st.notifications.find?
        (fun r => r.id == nid && r.user_id == u) = none := by
      rw [List.find?_eq_none]
      intro x hx hpx
      rw [Bool.and_eq_true, beq_iff_eq, beq_iff_eq] at hpx
      exact h x hx hpx.1 hpx.2
    simp [markAsRead, hnone]
  · intro r hr hid hu hnd
    have hfind := markAsRead_found st nid u hr hid hu hnd
    refine ⟨by simp [markAsRead, hfind], ?_, ?_⟩
    · intro x hx hxid
      simp only [markAsRead, hfind] at hx
      rcases List.mem_map.1 hx with ⟨y, hy, rfl⟩
      by_cases hyid : (y.id == nid) = true
      · simp [hyid]
      · have : (y.id == nid) = false := by simpa using hyid
        simp only [this, if_neg] at hxid ⊢
        exact absurd hxid (by simpa using this)
    · intro x hx hxid
      simp only [markAsRead, hfind]
      refine List.mem_map.2 ⟨x, hx, ?_⟩
      have : (x.id == nid) = false := by simpa using hxid
      simp [this]

/-- C10: the read flag is monotone: send creates every record with
read = false and appends them without touching existing rows; markAsRead
and markAllAsRead never turn a read record back to unread; and markAsRead
on an already-read record owned by the caller succeeds, returning the
record with read still true. -/
theorem read_flag_monotone (st : AppState) (req : SendNotificationRequest)
    (nid : Nat) (u : String) :
    (∀ r ∈ (notificationSend st req).1, r.read = false) ∧
    ((notificationSend st req).2.notifications =
        st.notifications ++ (notificationSend st req).1) ∧
    List.Forall₂ (fun a b => a.id = b.id ∧ (a.read = true → b.read = true))
      st.notifications (markAsRead st nid u).2.notifications ∧
    List.Forall₂ (fun a b => a.id = b.id ∧ (a.read = true → b.read = true))
      st.notifications (markAllAsRead st u).2.notifications ∧
    (∀ r ∈ st.notifications, r.read = true → r.id = nid → r.user_id = u →
        (st.notifications.map NotificationRow.id).Nodup →
        (markAsRead st nid u).1 = some r) := by
  have hsend := sendLoop_spec req
    (match req.channels with
      | some cs => cs
      | none => [Channel.in_app]) st
  refine ⟨?_, ?_, ?_, ?_, ?_⟩
  · intro r hr
    exact ((hsend.2.1 r hr).1)
  · exact hsend.1
  · unfold markAsRead
    cases hfind : st.notifications.find?
        (fun r => r.id == nid && r.user_id == u) with
    | none =>
        simp only []
        exact List.forall₂_same.2 fun x _ => ⟨rfl, fun h => h⟩
    | some row =>
        simp only []
        apply forall₂_map_self
        intro x
        by_cases hx : (x.id == nid) = true
        · rw [if_pos hx]
          exact ⟨rfl, fun _ => rfl⟩
        · rw [if_neg hx]
          exact ⟨rfl, fun h => h⟩
  · unfold markAllAsRead
    apply forall₂_map_self
    intro x
    by_cases hx : (x.user_id == u && x.read == false) = true
    · rw [if_pos hx]
      exact ⟨rfl, fun _ => rfl⟩
    · rw [if_neg hx]
      exact ⟨rfl, fun h => h⟩
  · intro r hr hread hid hu hnd
    have hfind := markAsRead_found st nid u hr hid hu hnd
    have hexp : ({ r with read := true } : NotificationRow) = r := by
      cases r
      simp_all
    simp [markAsRead, hfind, hexp]

/-! Concrete states used to evaluate the code at specific inputs. -/

def exNotifRead : NotificationRow :=
  { id := 1, user_id := "alice", type := .task_assigned, channel := .in_app,
    title := "T1", body := "B1", metadata := [], read := true,
    created_at := 10 }

def exNotifUnread : NotificationRow :=
  { id := 2, user_id := "bob", type := .comment_added, channel := .in_app,
    title := "T2", body := "B2", metadata := [], read := false,
    created_at := 11 }

def exState : AppState :=
  { notifications := [exNotifRead, exNotifUnread]
    notification_preferences := []
    webhooks := []
    webhook_deliveries := []
    sent_emails := []
    nextId := 3
    now := 12 }

/-- Witness for the C9 theorem at concrete inputs: marking bob's
notification as alice fails and changes nothing; marking it as bob
returns it with read set. -/
theorem markAsRead_ownership_contract_witness :
    markAsRead exState 2 "alice" = (none, exState) ∧
    (markAsRead exState 2 "bob").1 =
      some { exNotifUnread with read := true } :=
  ⟨(markAsRead_ownership_contract exState 2 "alice").1 (by decide),
   ((markAsRead_ownership_contract exState 2 "bob").2 exNotifUnread
      (by decide) (by decide) (by decide) (by decide)).1⟩

/-- Witness for the C10 theorem at concrete inputs: markAsRead on an
already-read record owned by the caller returns the record, read still
true. -/
theorem read_flag_monotone_witness :
    (markAsRead exState 1 "alice").1 = some exNotifRead :=
  (read_flag_monotone exState
      { userId := "alice", type := .task_assigned, title := "t", body := "b" }
      1 "alice").2.2.2.2 exNotifRead
    (by decide) (by decide) (by decide) (by decide) (by decide)

/-! Claims C1, C4, C5: where the dispatcher and the preferences read
diverge from the specified behaviour. -/

def prefsRowU1 : PreferencesRow :=
  { user_id := "u1"
    task_assigned := "[\"in_app\"]"
    task_status_changed := "[\"in_app\"]"
    comment_added := "[\"in_app\"]"
    project_invited := "[\"in_app\",\"email\"]"
    task_due_soon := "[\"email\"]" }

def stPrefs : AppState :=
  { notifications := []
    notification_preferences := [prefsRowU1]
    webhooks := []
    webhook_deliveries := []
    sent_emails := []
    nextId := 0
    now := 0 }

/-- C1 (code bug evaluation): send without an explicit channel list always
delivers to the literal channel set [in_app], never consulting stored
preferences or the per-type defaults.  Here user u1 has a stored
preference of [email] for task_due_soon, yet send delivers to in_app
only; for a user with no stored row and type project_invited the
hard-coded default (which the preferences service itself would return) is
[in_app, email], yet send again delivers to in_app only.  The final
conjunct records the half of the claim the code does satisfy: an explicit
channel list is used verbatim. -/
theorem send_ignores_stored_preferences :
    ((notificationSend stPrefs
        { userId := "u1", type := .task_due_soon,
          title := "t", body := "b" }).1.map (fun r => r.channel) =
      [Channel.in_app]) ∧
    (prefsGet stPrefs "u1").map (fun p => p.taskDueSoon) = some ["email"] ∧
    ((notificationSend stPrefs
        { userId := "u2", type := .project_invited,
          title := "t", body := "b" }).1.map (fun r => r.channel) =
      [Channel.in_app]) ∧
    (prefsGet stPrefs "u2").map (fun p => p.projectInvited) =
      some ["in_app", "email"] ∧
    DEFAULT_PREFERENCES.projectInvited = ["in_app", "email"] ∧
    ((notificationSend stPrefs
        { userId := "u1", type := .task_assigned, title := "t", body := "b",
          channels := some [Channel.email, Channel.webhook] }).1.map
      (fun r => r.channel) = [Channel.email, Channel.webhook]) := by
  refine ⟨rfl, by decide, rfl, by decide, rfl, rfl⟩

def corruptPrefsRow : PreferencesRow :=
  { user_id := "corrupt-user"
    task_assigned := "not-json"
    task_status_changed := "[\"in_app\"]"
    comment_added := "[\"in_app\"]"
    project_invited := "[\"in_app\",\"email\"]"
    task_due_soon := "[\"in_app\",\"email\"]" }

def stCorrupt : AppState :=
  { notifications := []
    notification_preferences := [corruptPrefsRow]
    webhooks := []
    webhook_deliveries := []
    sent_emails := []
    nextId := 0
    now := 0 }

/-- C4 (code bug evaluation): with a stored row whose task_assigned
column holds unparseable text (the exact row the repository's own test
inserts), every other column still parses, yet the whole preferences read
aborts with the thrown parse error instead of substituting that one
field's default — get yields no preferences object at all. -/
theorem prefsGet_corrupt_field_aborts_read :
    jsonParseStringArray corruptPrefsRow.task_assigned = none ∧
    jsonParseStringArray corruptPrefsRow.task_status_changed =
      some ["in_app"] ∧
    jsonParseStringArray corruptPrefsRow.comment_added = some ["in_app"] ∧
    jsonParseStringArray corruptPrefsRow.project_invited =
      some ["in_app", "email"] ∧
    jsonParseStringArray corruptPrefsRow.task_due_soon =
      some ["in_app", "email"] ∧
    prefsGet stCorrupt "corrupt-user" = none := by
  refine ⟨by decide, by decide, by decide, by decide, by decide, by decide⟩

/-- C5 (code bug evaluation): send persists exactly one record per
entry of the channel list, in order, but performs none of the per-channel
side effects the claim requires: for every state and request it leaves
sent_emails and webhook_deliveries untouched — the Email Sink is never
invoked and no webhook delivery pass is triggered — although the Email
Sink itself, when called, does persist a SentEmail row, as the last
conjunct shows. -/
theorem send_creates_records_but_skips_sinks (st : AppState)
    (req : SendNotificationRequest) (cs : List Channel)
    (hcs : req.channels = some cs) :
    ((notificationSend st req).1.map (fun r => r.channel) = cs) ∧
    (notificationSend st req).1.length = cs.length ∧
    (notificationSend st req).2.sent_emails = st.sent_emails ∧
    (notificationSend st req).2.webhook_deliveries =
      st.webhook_deliveries ∧
    (emailSend st "user@example.com" "subj" "body").2.sent_emails =
      st.sent_emails ++ [(emailSend st "user@example.com" "subj" "body").1]
    := by
  have hsend := sendLoop_spec req cs st
  have hch : (match req.channels with
      | some cs => cs
      | none => [Channel.in_app]) = cs := by rw [hcs]
  unfold notificationSend
  rw [hch]
  refine ⟨hsend.2.2.1, ?_, hsend.2.2.2.1, hsend.2.2.2.2.1, rfl⟩
  have := congrArg List.length hsend.2.2.1
  simpa using this

def stSinks : AppState :=
  { notifications := []
    notification_preferences := []
    webhooks := [{ id := 10, user_id := "u1",
                   url := "https://example.com/hook", secret := "s",
                   events := [.project_invited], active := true,
                   created_at := 0 }]
    webhook_deliveries := []
    sent_emails := []
    nextId := 11
    now := 5 }

/-- Witness for the C5 theorem at a concrete input: a send targeting the
email and webhook channels, in a state with an active subscribed webhook,
creates the two records and leaves both sinks untouched. -/
theorem send_creates_records_but_skips_sinks_witness :
    ((notificationSend stSinks
        { userId := "u1", type := .project_invited, title := "t",
          body := "b",
          channels := some [Channel.email, Channel.webhook] }).1.map
      (fun r => r.channel) = [Channel.email, Channel.webhook]) ∧
    (notificationSend stSinks
        { userId := "u1", type := .project_invited, title := "t",
          body := "b",
          channels := some [Channel.email, Channel.webhook] }).2.sent_emails
      = [] ∧
    (notificationSend stSinks
        { userId := "u1", type := .project_invited, title := "t",
          body := "b",
          channels := some [Channel.email,
            Channel.webhook] }).2.webhook_deliveries = [] := by
  have h := send_creates_records_but_skips_sinks stSinks
    { userId := "u1", type := .project_invited, title := "t", body := "b",
      channels := some [Channel.email, Channel.webhook] }
    [Channel.email, Channel.webhook] rfl
  exact ⟨h.1, h.2.2.1, h.2.2.2.1⟩

/-! Claim C3: webhook ownership isolation. -/

theorem webhookOps_not_found (st : AppState) (wid : Nat) (u : String)
    (req : UpdateWebhookRequest)
    (h : ∀ x ∈ st.webhooks, ¬(x.id = wid ∧ x.user_id = u)) :
    webhookGetById st wid u = none ∧
    webhookUpdate st wid u req = (none, st) ∧
    webhookDelete st wid u = (false, st) ∧
    webhookGetDeliveries st wid u = [] := by
  have hnone : webhookGetById st wid u = none := by
    unfold webhookGetById
    rw [List.find?_eq_none]
    intro x hx hpx
    rw [Bool.and_eq_true, beq_iff_eq, beq_iff_eq] at hpx
    exact h x hx hpx
  have hfil : st.webhooks.filter
      (fun r => !(r.id == wid && r.user_id == u)) = st.webhooks := by
    rw [List.filter_eq_self]
    intro a ha
    have hpa : (a.id == wid && a.user_id == u) = false := by
      by_contra hcon
      have : (a.id == wid && a.user_id == u) = true := by
        revert hcon
        cases a.id == wid && a.user_id == u <;> simp
      rw [Bool.and_eq_true, beq_iff_eq, beq_iff_eq] at this
      exact h a ha this
    simp [hpa]
  refine ⟨hnone, by simp [webhookUpdate, hnone], ?_,
    by simp [webhookGetDeliveries, hnone]⟩
  unfold webhookDelete
  rw [hfil]
  simp

/-- C3: every operation on a webhook id owned by a different user behaves
exactly as on an id that does not exist at all: getById returns null,
update returns null and modifies nothing, delete returns false and
deletes nothing, getDeliveries returns the empty list — and the same
quadruple of outcomes holds for an id no webhook has. -/
theorem webhook_ownership_isolation (st : AppState) (w : WebhookRow)
    (u : String) (req : UpdateWebhookRequest)
    (hw : w ∈ st.webhooks) (hu : w.user_id ≠ u)
    (hnd : (st.webhooks.map WebhookRow.id).Nodup) :
    (webhookGetById st w.id u = none ∧
      webhookUpdate st w.id u req = (none, st) ∧
      webhookDelete st w.id u = (false, st) ∧
      webhookGetDeliveries st w.id u = []) ∧
    (∀ fid : Nat, (∀ x ∈ st.webhooks, x.id ≠ fid) →
      webhookGetById st fid u = none ∧
      webhookUpdate st fid u req = (none, st) ∧
      webhookDelete st fid u = (false, st) ∧
      webhookGetDeliveries st fid u = []) := by
  constructor
  · apply webhookOps_not_found
    intro x hx hxp
    have hxw : x = w := List.inj_on_of_nodup_map hnd hx hw hxp.1
    apply hu
    rw [← hxw]
    exact hxp.2
  · intro fid hfid
    apply webhookOps_not_found
    intro x hx hxp
    exact hfid x hx hxp.1

def stOwners : AppState :=
  { notifications := []
    notification_preferences := []
    webhooks := [{ id := 10, user_id := "alice",
                   url := "https://example.com/a", secret := "sa",
                   events := [.task_assigned], active := true,
                   created_at := 1 }]
    webhook_deliveries := [{ id := 20, webhook_id := 10,
                             event_type := .task_assigned, payload := "p",
                             status := .delivered,
                             response_code := some 200, attempts := 1,
                             last_attempt_at := some 2, created_at := 1 }]
    sent_emails := []
    nextId := 21
    now := 3 }

/-- Witness for the C3 theorem at a concrete input: bob operating on
alice's webhook (which has a delivery on record) gets the four not-found
outcomes, as he does on a fresh id. -/
theorem webhook_ownership_isolation_witness :
    (webhookGetById stOwners 10 "bob" = none ∧
      webhookUpdate stOwners 10 "bob" { active := some false } =
        (none, stOwners) ∧
      webhookDelete stOwners 10 "bob" = (false, stOwners) ∧
      webhookGetDeliveries stOwners 10 "bob" = []) ∧
    (webhookGetById stOwners 99 "bob" = none ∧
      webhookUpdate stOwners 99 "bob" { active := some false } =
        (none, stOwners) ∧
      webhookDelete stOwners 99 "bob" = (false, stOwners) ∧
      webhookGetDeliveries stOwners 99 "bob" = []) := by
  have h := webhook_ownership_isolation stOwners
    { id := 10, user_id := "alice", url := "https://example.com/a",
      secret := "sa", events := [.task_assigned], active := true,
      created_at := 1 }
    "bob" { active := some false } (by decide) (by decide) (by decide)
  exact ⟨h.1, h.2 99 (by decide)⟩

/-! Claim C7: pagination contract of list. -/

/-- C7: list returns the user's notifications newest-first; total is the
full per-user count; hasMore holds exactly when page times pageSize is
below total; page defaults to 1 and is at least 1, pageSize defaults to
20 and always lands in [1, 100] whatever the caller sent; and the number
of returned items is the page-window size truncated at the end of the
collection. -/
theorem notificationList_pagination_contract (st : AppState) (u : String)
    (q : PaginationQuery) :
    (notificationList st u q).total =
      (st.notifications.filter (fun r => r.user_id == u)).length ∧
    1 ≤ (notificationList st u q).page ∧
    1 ≤ (notificationList st u q).pageSize ∧
    (notificationList st u q).pageSize ≤ 100 ∧
    (q.page = none → (notificationList st u q).page = 1) ∧
    (q.pageSize = none → (notificationList st u q).pageSize = 20) ∧
    ((notificationList st u q).hasMore = true ↔
      (notificationList st u q).page * (notificationList st u q).pageSize <
        ((notificationList st u q).total : Int)) ∧
    (notificationList st u q).items.Pairwise
      (fun a b => b.created_at ≤ a.created_at) ∧
    (∀ r ∈ (notificationList st u q).items, r.user_id = u) ∧
    (notificationList st u q).items.length =
      min (notificationList st u q).pageSize.toNat
        (((st.notifications.filter (fun r => r.user_id == u)).length -
          (((notificationList st u q).page - 1) *
            (notificationList st u q).pageSize).toNat)) := by
  refine ⟨rfl, ?_, ?_, ?_, ?_, ?_, ?_, ?_, ?_, ?_⟩
  · exact le_max_left 1 _
  · exact le_min (by norm_num) (le_max_left 1 _)
  · exact min_le_left 100 _
  · intro hq
    simp [notificationList, hq, jsOr]
  · intro hq
    simp [notificationList, hq, jsOr]
  · show decide _ = true ↔ _
    rw [decide_eq_true_iff]
    constructor
    · intro h
      have heq : (max 1 (jsOr q.page 1) - 1) *
            min 100 (max 1 (jsOr q.pageSize 20)) +
            min 100 (max 1 (jsOr q.pageSize 20)) =
          max 1 (jsOr q.page 1) * min 100 (max 1 (jsOr q.pageSize 20)) := by
        ring
      calc (notificationList st u q).page * (notificationList st u q).pageSize
          = (max 1 (jsOr q.page 1) - 1) *
              min 100 (max 1 (jsOr q.pageSize 20)) +
              min 100 (max 1 (jsOr q.pageSize 20)) := by
            rw [heq]; rfl
        _ < _ := h
    · intro h
      have heq : (max 1 (jsOr q.page 1) - 1) *
            min 100 (max 1 (jsOr q.pageSize 20)) +
            min 100 (max 1 (jsOr q.pageSize 20)) =
          max 1 (jsOr q.page 1) * min 100 (max 1 (jsOr q.pageSize 20)) := by
        ring
      show (max 1 (jsOr q.page 1) - 1) * min 100 (max 1 (jsOr q.pageSize 20)) +
          min 100 (max 1 (jsOr q.pageSize 20)) < _
      rw [heq]
      exact h
  · have hsorted : ((st.notifications.filter
        (fun r => r.user_id == u)).mergeSort newestFirst).Pairwise
        (fun a b => newestFirst a b = true) := by
      apply List.sorted_mergeSort
      · intro a b c hab hbc
        simp only [newestFirst, decide_eq_true_eq] at hab hbc ⊢
        omega
      · intro a b
        simp only [newestFirst]
        rcases Nat.le_total b.created_at a.created_at with h | h
        · simp [h]
        · simp [h]
    have hsub : (((st.notifications.filter
          (fun r => r.user_id == u)).mergeSort newestFirst).drop
            ((max 1 (jsOr q.page 1) - 1) *
              min 100 (max 1 (jsOr q.pageSize 20))).toNat).take
            (min 100 (max 1 (jsOr q.pageSize 20))).toNat
        |>.Sublist ((st.notifications.filter
          (fun r => r.user_id == u)).mergeSort newestFirst) :=
      (List.take_sublist _ _).trans (List.drop_sublist _ _)
    have := (hsorted.sublist hsub).imp
      (fun hab => by
        simpa [newestFirst, decide_eq_true_eq] using hab)
    exact this
  · intro r hr
    have hmem : r ∈ (st.notifications.filter
        (fun x => x.user_id == u)).mergeSort newestFirst := by
      have h1 := List.mem_of_mem_take hr
      exact List.mem_of_mem_drop h1
    have hmem2 : r ∈ st.notifications.filter (fun x => x.user_id == u) :=
      (List.mergeSort_perm _ _).mem_iff.1 hmem
    have := (List.mem_filter.1 hmem2).2
    exact beq_iff_eq.1 this
  · show (List.take _ (List.drop _ _)).length = _
    rw [List.length_take, List.length_drop, List.length_mergeSort]
    rfl

/-! Claim C2: the retry contract of attemptDelivery. -/

/-- Whether the fetch outcome of a given attempt index is a 2xx
response. -/
def okAt (env : Nat → FetchOutcome) (i : Nat) : Bool :=
  match env i with
  | .response s => responseOk s
  | .failure => false

/-- Index of the first successful attempt within the attempt budget, if
any. -/
def firstOk (env : Nat → FetchOutcome) : Option Nat :=
  if okAt env 0 then some 0
  else if okAt env 1 then some 1
  else if okAt env 2 then some 2
  else none

theorem find?_map_ite {l : List DeliveryRow} {did : Nat}
    {f : DeliveryRow → DeliveryRow} (hf : ∀ d, (f d).id = d.id) :
    (l.map (fun d => if d.id == did then f d else d)).find?
        (fun d => d.id == did) =
      (l.find? (fun d => d.id == did)).map f := by
  induction l with
  | nil => rfl
  | cons a l ih =>
      simp only [List.map_cons, List.find?_cons]
      by_cases ha : (a.id == did) = true
      · rw [if_pos ha]
        simp only [hf a, ha]
        rfl
      · rw [if_neg ha]
        have hb : (a.id == did) = false := by simpa using ha
        simp only [hb]
        simpa using ih

theorem deliveries_find_self {st : AppState} {r : DeliveryRow}
    (hr : r ∈ st.webhook_deliveries)
    (hnd : (st.webhook_deliveries.map DeliveryRow.id).Nodup) :
    st.webhook_deliveries.find? (fun d => d.id == r.id) = some r := by
  apply find?_eq_some_of_unique hr (by simp)
  intro x hx hpx
  exact List.inj_on_of_nodup_map hnd hx hr (beq_iff_eq.1 hpx)

theorem applyAttempt_fields (nowT a : Nat) (o : FetchOutcome)
    (d : DeliveryRow) :
    (applyAttempt nowT a o d).id = d.id ∧
    (applyAttempt nowT a o d).webhook_id = d.webhook_id ∧
    (applyAttempt nowT a o d).event_type = d.event_type ∧
    (applyAttempt nowT a o d).payload = d.payload ∧
    (applyAttempt nowT a o d).created_at = d.created_at := by
  cases o <;> exact ⟨rfl, rfl, rfl, rfl, rfl⟩

theorem attemptGo_first_ok (env : Nat → FetchOutcome) (did a f : Nat)
    (st : AppState) (hok : okAt env a = true) :
    attemptGo env did a (f + 1) st =
      (recordAttempt st did a (env a), 1) := by
  cases h : env a with
  | response s =>
      have hs : responseOk s = true := by simpa [okAt, h] using hok
      simp [attemptGo, h, hs]
  | failure => simp [okAt, h] at hok

theorem attemptGo_continue (env : Nat → FetchOutcome) (did a f : Nat)
    (st : AppState) (hok : okAt env a = false) :
    attemptGo env did a (f + 1) st =
      ((attemptGo env did (a + 1) f (recordAttempt st did a (env a))).1,
       (attemptGo env did (a + 1) f (recordAttempt st did a (env a))).2
         + 1) := by
  cases h : env a with
  | response s =>
      have hs : responseOk s = false := by simpa [okAt, h] using hok
      simp [attemptGo, h, hs]
  | failure => simp [attemptGo, h]

theorem attemptGo_count_le (env : Nat → FetchOutcome) (did : Nat) :
    ∀ (f a : Nat) (st : AppState), (attemptGo env did a f st).2 ≤ f := by
  intro f
  induction f with
  | zero => intro a st; simp [attemptGo]
  | succ f ih =>
      intro a st
      by_cases hok : okAt env a = true
      · rw [attemptGo_first_ok env did a f st hok]
        omega
      · rw [attemptGo_continue env did a f st (by simpa using hok)]
        have := ih (a + 1) (recordAttempt st did a (env a))
        omega

theorem attemptGo_length (env : Nat → FetchOutcome) (did : Nat) :
    ∀ (f a : Nat) (st : AppState),
      (attemptGo env did a f st).1.webhook_deliveries.length =
        st.webhook_deliveries.length := by
  intro f
  induction f with
  | zero => intro a st; simp [attemptGo]
  | succ f ih =>
      intro a st
      by_cases hok : okAt env a = true
      · rw [attemptGo_first_ok env did a f st hok]
        simp [recordAttempt]
      · rw [attemptGo_continue env did a f st (by simpa using hok)]
        rw [ih (a + 1) (recordAttempt st did a (env a))]
        simp [recordAttempt]

theorem attemptGo_other_mem (env : Nat → FetchOutcome) (did : Nat) :
    ∀ (f a : Nat) (st : AppState) (d : DeliveryRow),
      d ∈ st.webhook_deliveries → d.id ≠ did →
      d ∈ (attemptGo env did a f st).1.webhook_deliveries := by
  intro f
  induction f with
  | zero => intro a st d hd _; simpa [attemptGo] using hd
  | succ f ih =>
      intro a st d hd hne
      have hmem : d ∈ (recordAttempt st did a (env a)).webhook_deliveries := by
        simp only [recordAttempt]
        refine List.mem_map.2 ⟨d, hd, ?_⟩
        have : (d.id == did) = false := by simpa using hne
        simp [this]
      by_cases hok : okAt env a = true
      · rw [attemptGo_first_ok env did a f st hok]
        exact hmem
      · rw [attemptGo_continue env did a f st (by simpa using hok)]
        exact ih (a + 1) (recordAttempt st did a (env a)) d hmem hne

theorem attemptGo_other_tables (env : Nat → FetchOutcome) (did : Nat) :
    ∀ (f a : Nat) (st : AppState),
      (attemptGo env did a f st).1.nextId = st.nextId ∧
      (attemptGo env did a f st).1.webhooks = st.webhooks ∧
      (attemptGo env did a f st).1.notifications = st.notifications ∧
      (attemptGo env did a f st).1.notification_preferences =
        st.notification_preferences ∧
      (attemptGo env did a f st).1.sent_emails = st.sent_emails := by
  intro f
  induction f with
  | zero => intro a st; simp [attemptGo]
  | succ f ih =>
      intro a st
      by_cases hok : okAt env a = true
      · rw [attemptGo_first_ok env did a f st hok]
        exact ⟨rfl, rfl, rfl, rfl, rfl⟩
      · rw [attemptGo_continue env did a f st (by simpa using hok)]
        exact ih (a + 1) (recordAttempt st did a (env a))

theorem applyAttempt_id (nowT a : Nat) (o : FetchOutcome)
    (d : DeliveryRow) : (applyAttempt nowT a o d).id = d.id := by
  cases o <;> rfl

theorem applyAttempt_webhook_id (nowT a : Nat) (o : FetchOutcome)
    (d : DeliveryRow) :
    (applyAttempt nowT a o d).webhook_id = d.webhook_id := by
  cases o <;> rfl

theorem applyAttempt_event_type (nowT a : Nat) (o : FetchOutcome)
    (d : DeliveryRow) :
    (applyAttempt nowT a o d).event_type = d.event_type := by
  cases o <;> rfl

theorem applyAttempt_payload (nowT a : Nat) (o : FetchOutcome)
    (d : DeliveryRow) : (applyAttempt nowT a o d).payload = d.payload := by
  cases o <;> rfl

theorem applyAttempt_created_at (nowT a : Nat) (o : FetchOutcome)
    (d : DeliveryRow) :
    (applyAttempt nowT a o d).created_at = d.created_at := by
  cases o <;> rfl

theorem applyAttempt_response_eq (nowT a s : Nat) (d : DeliveryRow) :
    applyAttempt nowT a (.response s) d =
      { d with attempts := a + 1, response_code := some s,
               last_attempt_at := some nowT,
               status := if responseOk s then DeliveryStatus.delivered
                         else if maxAttempts ≤ a + 1 then
                           DeliveryStatus.failed
                         else DeliveryStatus.pending } := rfl

theorem applyAttempt_failure_eq (nowT a : Nat) (d : DeliveryRow) :
    applyAttempt nowT a .failure d =
      { d with attempts := a + 1, last_attempt_at := some nowT,
               status := if maxAttempts ≤ a + 1 then DeliveryStatus.failed
                         else DeliveryStatus.pending } := rfl

/-- C2: on a single delivery row the retry loop makes at most 3 (the
maxAttempts constant) HTTP attempts; the delivery table keeps its length
and every other row is untouched, so the row is a running ledger mutated
in place; if attempt i is the first 2xx response the loop stops after
exactly i + 1 attempts and the row ends delivered with that response
code, attempt count i + 1 and the timestamp of attempt i; if no attempt
succeeds the loop stops after exactly 3 attempts — never a 4th — and the
row ends failed with attempts = 3 and the timestamp of the 3rd
attempt. -/
theorem attemptDelivery_retry_contract (env : Nat → FetchOutcome)
    (st : AppState) (r : DeliveryRow)
    (hr : r ∈ st.webhook_deliveries)
    (hnd : (st.webhook_deliveries.map DeliveryRow.id).Nodup) :
    (attemptDelivery env st r.id).2 ≤ maxAttempts ∧
    (attemptDelivery env st r.id).1.webhook_deliveries.length =
      st.webhook_deliveries.length ∧
    (∀ d ∈ st.webhook_deliveries, d.id ≠ r.id →
        d ∈ (attemptDelivery env st r.id).1.webhook_deliveries) ∧
    (∀ i s, firstOk env = some i → env i = FetchOutcome.response s →
        (attemptDelivery env st r.id).2 = i + 1 ∧
        (attemptDelivery env st r.id).1.webhook_deliveries.find?
            (fun d => d.id == r.id) =
          some
            { r with attempts := i + 1, response_code := some s,
                     last_attempt_at := some (st.now + i),
                     status := DeliveryStatus.delivered }) ∧
    (firstOk env = none →
        (attemptDelivery env st r.id).2 = maxAttempts ∧
        ∃ rc,
          (attemptDelivery env st r.id).1.webhook_deliveries.find?
              (fun d => d.id == r.id) =
            some
              { r with attempts := maxAttempts, response_code := rc,
                       last_attempt_at := some (st.now + 2),
                       status := DeliveryStatus.failed }) := by
  have hfind := deliveries_find_self hr hnd
  have hpres : ∀ (nowT a : Nat) (o : FetchOutcome) (d : DeliveryRow),
      (applyAttempt nowT a o d).id = d.id := applyAttempt_id
  refine ⟨attemptGo_count_le env r.id maxAttempts 0 st,
          attemptGo_length env r.id maxAttempts 0 st,
          fun d hd hne => attemptGo_other_mem env r.id maxAttempts 0 st d hd hne,
          ?_, ?_⟩
  all_goals (
    by_cases hok0 : okAt env 0 = true
    case pos =>
      obtain ⟨s0, hs0, hsok0⟩ : ∃ s, env 0 = .response s ∧ responseOk s = true := by
        cases h : env 0 with
        | response s => exact ⟨s, rfl, by simpa [okAt, h] using hok0⟩
        | failure => simp [okAt, h] at hok0
      have hstep : attemptDelivery env st r.id =
          (recordAttempt st r.id 0 (env 0), 1) := by
        show attemptGo env r.id 0 (2 + 1) st = _
        exact attemptGo_first_ok env r.id 0 2 st hok0
      first
      | (intro i s hsome henvi
         have hi : i = 0 := by
           simp [firstOk, hok0] at hsome
           omega
         subst hi
         rw [hs0] at henvi
         injection henvi with hss
         subst hss
         refine ⟨by rw [hstep], ?_⟩
         rw [hstep]
         simp only [recordAttempt]
         rw [find?_map_ite (hpres _ _ _), hfind]
         rw [hs0]
         simp [applyAttempt_response_eq, hsok0])
      | (intro hnone
         simp [firstOk, hok0] at hnone)
    case neg =>
      have hok0' : okAt env 0 = false := by simpa using hok0
      by_cases hok1 : okAt env 1 = true
      case pos =>
        obtain ⟨s1, hs1, hsok1⟩ : ∃ s, env 1 = .response s ∧ responseOk s = true := by
          cases h : env 1 with
          | response s => exact ⟨s, rfl, by simpa [okAt, h] using hok1⟩
          | failure => simp [okAt, h] at hok1
        have hstep : attemptDelivery env st r.id =
            (recordAttempt (recordAttempt st r.id 0 (env 0)) r.id 1 (env 1),
             2) := by
          show attemptGo env r.id 0 (2 + 1) st = _
          rw [attemptGo_continue env r.id 0 2 st hok0']
          rw [attemptGo_first_ok env r.id 1 1
            (recordAttempt st r.id 0 (env 0)) hok1]
        first
        | (intro i s hsome henvi
           have hi : i = 1 := by
             simp [firstOk, hok0', hok1] at hsome
             omega
           subst hi
           rw [hs1] at henvi
           injection henvi with hss
           subst hss
           refine ⟨by rw [hstep], ?_⟩
           rw [hstep]
           simp only [recordAttempt]
           rw [find?_map_ite (hpres _ _ _), find?_map_ite (hpres _ _ _),
               hfind]
           rw [hs1]
           simp [applyAttempt_response_eq, hsok1, applyAttempt_id,
                 applyAttempt_webhook_id, applyAttempt_event_type,
                 applyAttempt_payload, applyAttempt_created_at])
        | (intro hnone
           simp [firstOk, hok0', hok1] at hnone)
      case neg =>
        have hok1' : okAt env 1 = false := by simpa using hok1
        by_cases hok2 : okAt env 2 = true
        case pos =>
          obtain ⟨s2, hs2, hsok2⟩ : ∃ s, env 2 = .response s ∧ responseOk s = true := by
            cases h : env 2 with
            | response s => exact ⟨s, rfl, by simpa [okAt, h] using hok2⟩
            | failure => simp [okAt, h] at hok2
          have hstep : attemptDelivery env st r.id =
              (recordAttempt (recordAttempt (recordAttempt st r.id 0
                  (env 0)) r.id 1 (env 1)) r.id 2 (env 2), 3) := by
            show attemptGo env r.id 0 (2 + 1) st = _
            rw [attemptGo_continue env r.id 0 2 st hok0']
            rw [attemptGo_continue env r.id 1 1
              (recordAttempt st r.id 0 (env 0)) hok1']
            rw [attemptGo_first_ok env r.id 2 0
              (recordAttempt (recordAttempt st r.id 0 (env 0)) r.id 1
                (env 1)) hok2]
          first
          | (intro i s hsome henvi
             have hi : i = 2 := by
               simp [firstOk, hok0', hok1', hok2] at hsome
               omega
             subst hi
             rw [hs2] at henvi
             injection henvi with hss
             subst hss
             refine ⟨by rw [hstep], ?_⟩
             rw [hstep]
             simp only [recordAttempt]
             rw [find?_map_ite (hpres _ _ _), find?_map_ite (hpres _ _ _),
                 find?_map_ite (hpres _ _ _), hfind]
             rw [hs2]
             simp [applyAttempt_response_eq, hsok2, applyAttempt_id,
                   applyAttempt_webhook_id, applyAttempt_event_type,
                   applyAttempt_payload, applyAttempt_created_at])
          | (intro hnone
             simp [firstOk, hok0', hok1', hok2] at hnone)
        case neg =>
          have hok2' : okAt env 2 = false := by simpa using hok2
          have hstep : attemptDelivery env st r.id =
              (recordAttempt (recordAttempt (recordAttempt st r.id 0
                  (env 0)) r.id 1 (env 1)) r.id 2 (env 2), 3) := by
            show attemptGo env r.id 0 (2 + 1) st = _
            rw [attemptGo_continue env r.id 0 2 st hok0']
            rw [attemptGo_continue env r.id 1 1
              (recordAttempt st r.id 0 (env 0)) hok1']
            rw [attemptGo_continue env r.id 2 0
              (recordAttempt (recordAttempt st r.id 0 (env 0)) r.id 1
                (env 1)) hok2']
            simp [attemptGo]
          first
          | (intro i s hsome henvi
             simp [firstOk, hok0', hok1', hok2'] at hsome)
          | (intro hnone
             refine ⟨by rw [hstep]; rfl, ?_⟩
             rw [hstep]
             simp only [recordAttempt]
             rw [find?_map_ite (hpres _ _ _), find?_map_ite (hpres _ _ _),
                 find?_map_ite (hpres _ _ _), hfind]
             cases h2 : env 2 with
             | response s2 =>
                 have hs2 : responseOk s2 = false := by
                   simpa [okAt, h2] using hok2'
                 refine ⟨some s2, ?_⟩
                 simp [applyAttempt_response_eq, hs2, maxAttempts,
                       applyAttempt_id, applyAttempt_webhook_id,
                       applyAttempt_event_type, applyAttempt_payload,
                       applyAttempt_created_at]
             | failure =>
                 refine ⟨(applyAttempt (st.now + 1) 1 (env 1)
                   (applyAttempt st.now 0 (env 0) r)).response_code, ?_⟩
                 simp [applyAttempt_failure_eq, maxAttempts,
                       applyAttempt_id, applyAttempt_webhook_id,
                       applyAttempt_event_type, applyAttempt_payload,
                       applyAttempt_created_at]))

def exDelivery : DeliveryRow :=
  { id := 5, webhook_id := 10, event_type := .task_assigned, payload := "p",
    status := .pending, response_code := none, attempts := 0,
    last_attempt_at := none, created_at := 7 }

def stRetry : AppState :=
  { notifications := []
    notification_preferences := []
    webhooks := []
    webhook_deliveries := [exDelivery]
    sent_emails := []
    nextId := 6
    now := 7 }

def envThirdOk : Nat → FetchOutcome := fun i =>
  if i = 2 then .response 200 else .failure

/-- Witness for the C2 theorem at a concrete input: an endpoint failing
its first two attempts and answering 200 on the third yields exactly 3
attempts and a delivered row with attempts = 3. -/
theorem attemptDelivery_retry_contract_witness :
    (attemptDelivery envThirdOk stRetry exDelivery.id).2 = 2 + 1 ∧
    (attemptDelivery envThirdOk stRetry
        exDelivery.id).1.webhook_deliveries.find?
        (fun d => d.id == exDelivery.id) =
      some
        { exDelivery with attempts := 2 + 1, response_code := some 200,
                          last_attempt_at := some (stRetry.now + 2),
                          status := DeliveryStatus.delivered } :=
  (attemptDelivery_retry_contract envThirdOk stRetry exDelivery
    (by decide) (by decide)).2.2.2.1 2 200 (by decide) (by decide)

/-! Claim C6: targeting of the delivery pass. -/

theorem applyAttempt_attempts (nowT a : Nat) (o : FetchOutcome)
    (d : DeliveryRow) : (applyAttempt nowT a o d).attempts = a + 1 := by
  cases o <;> rfl

theorem applyAttempt_last (nowT a : Nat) (o : FetchOutcome)
    (d : DeliveryRow) :
    (applyAttempt nowT a o d).last_attempt_at = some nowT := by
  cases o <;> rfl

theorem attemptGo_ids (env : Nat → FetchOutcome) (did : Nat) :
    ∀ (f a : Nat) (st : AppState),
      (attemptGo env did a f st).1.webhook_deliveries.map DeliveryRow.id =
        st.webhook_deliveries.map DeliveryRow.id := by
  intro f
  induction f with
  | zero => intro a st; simp [attemptGo]
  | succ f ih =>
      intro a st
      have hrec : (recordAttempt st did a
          (env a)).webhook_deliveries.map DeliveryRow.id =
          st.webhook_deliveries.map DeliveryRow.id := by
        simp only [recordAttempt]
        rw [List.map_map]
        apply List.map_congr_left
        intro d _
        by_cases hd : (d.id == did) = true
        · simp [Function.comp, hd, applyAttempt_id]
        · simp [Function.comp, hd]
      by_cases hok : okAt env a = true
      · rw [attemptGo_first_ok env did a f st hok]
        exact hrec
      · rw [attemptGo_continue env did a f st (by simpa using hok)]
        rw [ih (a + 1) (recordAttempt st did a (env a))]
        exact hrec

theorem attemptGo_countP (env : Nat → FetchOutcome) (did N wid : Nat) :
    ∀ (f a : Nat) (st : AppState),
      (attemptGo env did a f st).1.webhook_deliveries.countP
          (fun d => N ≤ d.id && d.webhook_id == wid) =
        st.webhook_deliveries.countP
          (fun d => N ≤ d.id && d.webhook_id == wid) := by
  intro f
  induction f with
  | zero => intro a st; simp [attemptGo]
  | succ f ih =>
      intro a st
      have hrec : (recordAttempt st did a
          (env a)).webhook_deliveries.countP
            (fun d => N ≤ d.id && d.webhook_id == wid) =
          st.webhook_deliveries.countP
            (fun d => N ≤ d.id && d.webhook_id == wid) := by
        simp only [recordAttempt]
        rw [List.countP_map]
        apply List.countP_congr
        intro d _
        by_cases hd : (d.id == did) = true
        · simp [Function.comp, hd, applyAttempt_id, applyAttempt_webhook_id]
        · simp [Function.comp, hd]
      by_cases hok : okAt env a = true
      · rw [attemptGo_first_ok env did a f st hok]
        exact hrec
      · rw [attemptGo_continue env did a f st (by simpa using hok)]
        rw [ih (a + 1) (recordAttempt st did a (env a))]
        exact hrec

theorem attemptGo_target_props (env : Nat → FetchOutcome) (did : Nat) :
    ∀ (f a : Nat) (st : AppState), 0 < f →
      ∀ d ∈ (attemptGo env did a f st).1.webhook_deliveries, d.id = did →
        ∃ d0 ∈ st.webhook_deliveries, d0.id = did ∧
          d.webhook_id = d0.webhook_id ∧ d.event_type = d0.event_type ∧
          d.payload = d0.payload ∧ a + 1 ≤ d.attempts ∧
          d.attempts ≤ a + f ∧ d.last_attempt_at ≠ none := by
  intro f
  induction f with
  | zero => intro a st hf; omega
  | succ f ih =>
      intro a st _
      have hrec : ∀ d ∈ (recordAttempt st did a
          (env a)).webhook_deliveries, d.id = did →
          ∃ d0 ∈ st.webhook_deliveries, d0.id = did ∧
            d.webhook_id = d0.webhook_id ∧ d.event_type = d0.event_type ∧
            d.payload = d0.payload ∧ d.attempts = a + 1 ∧
            d.last_attempt_at ≠ none := by
        intro d hd hdid
        simp only [recordAttempt] at hd
        rcases List.mem_map.1 hd with ⟨d0, hd0, rfl⟩
        by_cases h0 : (d0.id == did) = true
        · rw [if_pos h0]
          rw [if_pos h0] at hdid
          refine ⟨d0, hd0, beq_iff_eq.1 h0, applyAttempt_webhook_id _ _ _ _,
            applyAttempt_event_type _ _ _ _, applyAttempt_payload _ _ _ _,
            applyAttempt_attempts _ _ _ _, ?_⟩
          rw [applyAttempt_last]
          simp
        · rw [if_neg h0] at hdid ⊢
          exact absurd hdid (by simpa using h0)
      by_cases hok : okAt env a = true
      · rw [attemptGo_first_ok env did a f st hok]
        intro d hd hdid
        obtain ⟨d0, hd0, hid0, h1, h2, h3, h4, h5⟩ := hrec d hd hdid
        exact ⟨d0, hd0, hid0, h1, h2, h3, by omega, by omega, h5⟩
      · rw [attemptGo_continue env did a f st (by simpa using hok)]
        rcases Nat.eq_zero_or_pos f with hf | hf
        · subst hf
          intro d hd hdid
          simp only [attemptGo] at hd
          obtain ⟨d0, hd0, hid0, h1, h2, h3, h4, h5⟩ := hrec d hd hdid
          exact ⟨d0, hd0, hid0, h1, h2, h3, by omega, by omega, h5⟩
        · intro d hd hdid
          obtain ⟨d1, hd1, hid1, h1, h2, h3, h4, h5, h6⟩ :=
            ih (a + 1) (recordAttempt st did a (env a)) hf d hd hdid
          obtain ⟨d0, hd0, hid0, g1, g2, g3, g4, g5⟩ := hrec d1 hd1 hid1
          refine ⟨d0, hd0, hid0, by rw [h1, g1], by rw [h2, g2],
            by rw [h3, g3], by omega, by omega, h6⟩

theorem attemptGo_mem_or (env : Nat → FetchOutcome) (did : Nat) :
    ∀ (f a : Nat) (st : AppState),
      ∀ d ∈ (attemptGo env did a f st).1.webhook_deliveries,
        d ∈ st.webhook_deliveries ∨ d.id = did := by
  intro f
  induction f with
  | zero => intro a st d hd; exact Or.inl (by simpa [attemptGo] using hd)
  | succ f ih =>
      intro a st d hd
      have hrec : ∀ d ∈ (recordAttempt st did a (env a)).webhook_deliveries,
          d ∈ st.webhook_deliveries ∨ d.id = did := by
        intro d hd
        simp only [recordAttempt] at hd
        rcases List.mem_map.1 hd with ⟨d0, hd0, rfl⟩
        by_cases h0 : (d0.id == did) = true
        · rw [if_pos h0]
          right
          rw [applyAttempt_id]
          exact beq_iff_eq.1 h0
        · rw [if_neg h0]
          exact Or.inl hd0
      by_cases hok : okAt env a = true
      · rw [attemptGo_first_ok env did a f st hok] at hd
        exact hrec d hd
      · rw [attemptGo_continue env did a f st (by simpa using hok)] at hd
        rcases ih (a + 1) (recordAttempt st did a (env a)) d hd with h | h
        · exact hrec d h
        · exact Or.inr h

theorem deliverLoop_spec (env : String → Nat → FetchOutcome)
    (e : NotificationType) (p : String) :
    ∀ (ws : List WebhookRow) (st : AppState),
      (∀ d ∈ st.webhook_deliveries, d.id < st.nextId) →
      st.nextId ≤ (deliverLoop env e p ws st).nextId ∧
      (∀ d ∈ (deliverLoop env e p ws st).webhook_deliveries,
          d.id < (deliverLoop env e p ws st).nextId) ∧
      (∀ d ∈ st.webhook_deliveries,
          d ∈ (deliverLoop env e p ws st).webhook_deliveries) ∧
      (∀ d ∈ (deliverLoop env e p ws st).webhook_deliveries,
          d ∈ st.webhook_deliveries ∨ st.nextId ≤ d.id) ∧
      (∀ d ∈ (deliverLoop env e p ws st).webhook_deliveries,
          st.nextId ≤ d.id →
          d.event_type = e ∧ d.payload = p ∧ 1 ≤ d.attempts ∧
          d.attempts ≤ maxAttempts ∧ d.last_attempt_at ≠ none) ∧
      (∀ N wid : Nat, N ≤ st.nextId →
          (deliverLoop env e p ws st).webhook_deliveries.countP
              (fun d => N ≤ d.id && d.webhook_id == wid) =
            st.webhook_deliveries.countP
              (fun d => N ≤ d.id && d.webhook_id == wid) +
            (ws.filter
              (fun w => w.events.contains e && w.id == wid)).length) := by
  intro ws
  induction ws with
  | nil =>
      intro st hfresh
      refine ⟨le_refl _, hfresh, fun d hd => hd, fun d hd => Or.inl hd,
        ?_, ?_⟩
      · intro d hd hge
        exact absurd hge (by have := hfresh d hd; omega)
      · intro N wid _
        simp [deliverLoop]
  | cons w ws ih =>
      intro st hfresh
      by_cases hw : w.events.contains e = true
      · have hunf : deliverLoop env e p (w :: ws) st =
            deliverLoop env e p ws
              ((attemptDelivery (env w.url)
                { st with
                  webhook_deliveries :=
                    st.webhook_deliveries ++ [newDeliveryRow st w.id e p]
                  nextId := st.nextId + 1 } st.nextId).1) := by
          simp only [deliverLoop]
          rw [if_pos hw]
        set row := newDeliveryRow st w.id e p with hrow
        set st1 : AppState :=
          { st with
            webhook_deliveries := st.webhook_deliveries ++ [row]
            nextId := st.nextId + 1 } with hst1
        set st2 : AppState :=
          (attemptDelivery (env w.url) st1 st.nextId).1 with hst2
        have hst2go : st2 =
            (attemptGo (env w.url) st.nextId 0 maxAttempts st1).1 := rfl
        have hnext2 : st2.nextId = st.nextId + 1 := by
          rw [hst2go]
          exact (attemptGo_other_tables (env w.url) st.nextId
            maxAttempts 0 st1).1
        have hids2 : st2.webhook_deliveries.map DeliveryRow.id =
            st1.webhook_deliveries.map DeliveryRow.id := by
          rw [hst2go]
          exact attemptGo_ids (env w.url) st.nextId maxAttempts 0 st1
        have hfresh1 : ∀ d ∈ st1.webhook_deliveries, d.id < st1.nextId := by
          intro d hd
          rcases List.mem_append.1 hd with h | h
          · have := hfresh d h
            simp only [hst1]
            omega
          · have : d = row := by simpa using h
            subst this
            simp [hst1, hrow, newDeliveryRow]
        have hfresh2 : ∀ d ∈ st2.webhook_deliveries, d.id < st2.nextId := by
          intro d hd
          have : d.id ∈ st2.webhook_deliveries.map DeliveryRow.id :=
            List.mem_map.2 ⟨d, hd, rfl⟩
          rw [hids2] at this
          rcases List.mem_map.1 this with ⟨d1, hd1, hid⟩
          have := hfresh1 d1 hd1
          rw [hnext2]
          simp only [hst1] at this
          omega
        obtain ⟨ihA, ihB, ihC, ihD, ihE, ihF⟩ := ih st2 hfresh2
        rw [hunf]
        refine ⟨?_, ihB, ?_, ?_, ?_, ?_⟩
        · have : st.nextId ≤ st2.nextId := by omega
          omega
        · intro d hd
          apply ihC
          rw [hst2go]
          apply attemptGo_other_mem
          · exact List.mem_append_left _ hd
          · have := hfresh d hd
            omega
        · intro d hd
          rcases ihD d hd with h2 | h2
          · rcases attemptGo_mem_or (env w.url) st.nextId maxAttempts 0 st1
                d (by rw [← hst2go]; exact h2) with h3 | h3
            · rcases List.mem_append.1 h3 with h4 | h4
              · exact Or.inl h4
              · have : d = row := by simpa using h4
                subst this
                right
                simp [hrow, newDeliveryRow]
            · right
              omega
          · right
            omega
        · intro d hd hge
          by_cases hge2 : st2.nextId ≤ d.id
          · exact ihE d hd hge2
          · have hdid : d.id = st.nextId := by omega
            have hd2 : d ∈ st2.webhook_deliveries := by
              rcases ihD d hd with h2 | h2
              · exact h2
              · exact absurd h2 (by omega)
            obtain ⟨d0, hd0, hid0, hf1, hf2, hf3, hf4, hf5, hf6⟩ :=
              attemptGo_target_props (env w.url) st.nextId maxAttempts 0
                st1 (by norm_num [maxAttempts]) d
                (by rw [← hst2go]; exact hd2) hdid
            have hd0row : d0 = row := by
              rcases List.mem_append.1 hd0 with h4 | h4
              · exact absurd hid0 (by have := hfresh d0 h4; omega)
              · simpa using h4
            subst hd0row
            refine ⟨by rw [hf2]; simp [hrow, newDeliveryRow],
              by rw [hf3]; simp [hrow, newDeliveryRow],
              by omega, by simpa using hf5, hf6⟩
        · intro N wid hN
          have hcount2 : st2.webhook_deliveries.countP
              (fun d => N ≤ d.id && d.webhook_id == wid) =
              st1.webhook_deliveries.countP
                (fun d => N ≤ d.id && d.webhook_id == wid) := by
            rw [hst2go]
            exact attemptGo_countP (env w.url) st.nextId N wid
              maxAttempts 0 st1
          have hrowid : row.id = st.nextId := by
            simp [hrow, newDeliveryRow]
          have hshow : st1.webhook_deliveries =
              st.webhook_deliveries ++ [row] := by rw [hst1]
          have hcount1 : st1.webhook_deliveries.countP
              (fun d => N ≤ d.id && d.webhook_id == wid) =
              st.webhook_deliveries.countP
                (fun d => N ≤ d.id && d.webhook_id == wid) +
              (if (row.webhook_id == wid) = true then 1 else 0) := by
            rw [hshow, List.countP_append, List.countP_cons, List.countP_nil]
            have hdec : decide (N ≤ row.id) = true := by
              rw [decide_eq_true_iff, hrowid]
              exact hN
            by_cases hwid2 : (row.webhook_id == wid) = true
            · simp [hwid2, hdec]
            · have h2 : (row.webhook_id == wid) = false := by simpa using hwid2
              simp [h2, hdec]
          rw [ihF N wid (by omega), hcount2, hcount1]
          have hfw : ((w :: ws).filter
              (fun x => x.events.contains e && x.id == wid)).length =
              (if (w.id == wid) = true then 1 else 0) +
              (ws.filter
                (fun x => x.events.contains e && x.id == wid)).length := by
            by_cases hwid : (w.id == wid) = true
            · rw [List.filter_cons_of_pos (by rw [hw, hwid]; rfl)]
              simp [hwid]
              omega
            · have hwid' : (w.id == wid) = false := by simpa using hwid
              rw [List.filter_cons_of_neg (by simp [hwid'])]
              simp [hwid']
          rw [hfw]
          have hroww : row.webhook_id = w.id := by
            simp [hrow, newDeliveryRow]
          rw [hroww]
          by_cases hwid : (w.id == wid) = true
          · simp only [hwid, if_true]
            omega
          · have h2 : (w.id == wid) = false := by simpa using hwid
            simp only [h2, Bool.false_eq_true, if_false]
            omega
      · have hw' : w.events.contains e = false := by simpa using hw
        have hunf : deliverLoop env e p (w :: ws) st =
            deliverLoop env e p ws st := by
          simp only [deliverLoop]
          rw [if_neg hw]
        obtain ⟨ihA, ihB, ihC, ihD, ihE, ihF⟩ := ih st hfresh
        rw [hunf]
        refine ⟨ihA, ihB, ihC, ihD, ihE, ?_⟩
        · intro N wid hN
          rw [ihF N wid hN]
          rw [List.filter_cons_of_neg (by rw [hw']; simp)]

theorem length_filter_eq_of_unique_id {l : List WebhookRow}
    (hnd : (l.map WebhookRow.id).Nodup) {w : WebhookRow} (hw : w ∈ l)
    {Q : WebhookRow → Bool}
    (hQ : ∀ x, Q x = true → x.id = w.id) :
    (l.filter Q).length = if Q w = true then 1 else 0 := by
  induction l with
  | nil => cases hw
  | cons a l ih =>
      have hnd' : (l.map WebhookRow.id).Nodup :=
        (List.nodup_cons.1 (by simpa using hnd)).2
      have hnotin : a.id ∉ l.map WebhookRow.id :=
        (List.nodup_cons.1 (by simpa using hnd)).1
      rcases List.mem_cons.1 hw with rfl | hwl
      · have hfl : l.filter Q = [] := by
          rw [List.filter_eq_nil_iff]
          intro x hx hQx
          apply hnotin
          rw [← hQ x hQx]
          exact List.mem_map.2 ⟨x, hx, rfl⟩
        by_cases hQa : Q w = true
        · rw [List.filter_cons_of_pos hQa, hfl]
          simp [hQa]
        · rw [List.filter_cons_of_neg hQa, hfl]
          simp [hQa]
      · have hQa : Q a = false := by
          by_contra hcon
          have h1 : Q a = true := by
            revert hcon
            cases Q a <;> simp
          apply hnotin
          rw [hQ a h1]
          exact List.mem_map.2 ⟨w, hwl, rfl⟩
        rw [List.filter_cons_of_neg (by simp [hQa])]
        exact ih hnd' hwl

/-- C6: a delivery pass for an event gives exactly one new delivery row —
created pending with attempts 0, then attempted at least once and at most
three times, carrying exactly the event type and payload — to each of the
user's webhooks that is active and whose subscribed event set contains
the event type, and no new row to any other webhook; every pre-existing
delivery row survives; skipped webhooks are simply skipped, never an
error. -/
theorem deliver_targets_active_subscribed
    (env : String → Nat → FetchOutcome) (st : AppState)
    (e : NotificationType) (p : String) (u : String)
    (hfresh : ∀ d ∈ st.webhook_deliveries, d.id < st.nextId)
    (hnd : (st.webhooks.map WebhookRow.id).Nodup) :
    (∀ (st' : AppState) (wid : Nat),
        (newDeliveryRow st' wid e p).status = DeliveryStatus.pending ∧
        (newDeliveryRow st' wid e p).attempts = 0) ∧
    (∀ w ∈ st.webhooks,
        (webhookDeliver env st e p u).webhook_deliveries.countP
            (fun d => st.nextId ≤ d.id && d.webhook_id == w.id) =
          if (w.user_id == u && w.active && w.events.contains e) = true
          then 1 else 0) ∧
    (∀ d ∈ st.webhook_deliveries,
        d ∈ (webhookDeliver env st e p u).webhook_deliveries) ∧
    (∀ d ∈ (webhookDeliver env st e p u).webhook_deliveries,
        st.nextId ≤ d.id →
        d.event_type = e ∧ d.payload = p ∧ 1 ≤ d.attempts ∧
        d.attempts ≤ maxAttempts ∧ d.last_attempt_at ≠ none) := by
  obtain ⟨hA, hB, hC, hD, hE, hF⟩ := deliverLoop_spec env e p
    (st.webhooks.filter (fun r => r.user_id == u && r.active)) st hfresh
  refine ⟨fun st' wid => ⟨rfl, rfl⟩, ?_, hC, hE⟩
  intro w hw
  have hzero : st.webhook_deliveries.countP
      (fun d => st.nextId ≤ d.id && d.webhook_id == w.id) = 0 := by
    rw [List.countP_eq_zero]
    intro d hd
    have := hfresh d hd
    simp only [Bool.and_eq_true, decide_eq_true_iff]
    intro hcon
    omega
  have hcount := hF st.nextId w.id (le_refl _)
  show (deliverLoop env e p
      (st.webhooks.filter (fun r => r.user_id == u && r.active))
      st).webhook_deliveries.countP
      (fun d => st.nextId ≤ d.id && d.webhook_id == w.id) = _
  rw [hcount, hzero]
  rw [List.filter_filter]
  have hQ : ∀ x : WebhookRow,
      ((x.events.contains e && x.id == w.id) &&
        (x.user_id == u && x.active)) = true → x.id = w.id := by
    intro x hx
    rw [Bool.and_eq_true, Bool.and_eq_true] at hx
    exact beq_iff_eq.1 hx.1.2
  rw [length_filter_eq_of_unique_id hnd hw hQ]
  have hQw : ((w.events.contains e && (w.id == w.id)) &&
      (w.user_id == u && w.active)) =
      (w.user_id == u && w.active && w.events.contains e) := by
    cases hc : w.events.contains e <;>
      cases hu : (w.user_id == u) <;>
        cases ha : w.active <;> simp
  rw [hQw]
  omega

def whSub : WebhookRow :=
  { id := 1, user_id := "u1", url := "https://a.example", secret := "s1",
    events := [.task_assigned], active := true, created_at := 0 }

def whOther : WebhookRow :=
  { id := 2, user_id := "u1", url := "https://b.example", secret := "s2",
    events := [.comment_added], active := true, created_at := 0 }

def stDeliver : AppState :=
  { notifications := []
    notification_preferences := []
    webhooks := [whSub, whOther]
    webhook_deliveries := []
    sent_emails := []
    nextId := 3
    now := 0 }

/-- Witness for the C6 theorem at a concrete input: firing task_assigned
for a user with one subscribed and one unsubscribed webhook creates
exactly one new delivery row for the former and none for the latter. -/
theorem deliver_targets_active_subscribed_witness :
    (webhookDeliver (fun _ _ => .failure) stDeliver .task_assigned "pl"
        "u1").webhook_deliveries.countP
      (fun d => stDeliver.nextId ≤ d.id && d.webhook_id == whSub.id) =
      1 ∧
    (webhookDeliver (fun _ _ => .failure) stDeliver .task_assigned "pl"
        "u1").webhook_deliveries.countP
      (fun d => stDeliver.nextId ≤ d.id && d.webhook_id == whOther.id) =
      0 := by
  have h := deliver_targets_active_subscribed (fun _ _ => .failure)
    stDeliver .task_assigned "pl" "u1" (by decide) (by decide)
  constructor
  · have h1 := h.2.1 whSub (by decide)
    have hc : (whSub.user_id == "u1" && whSub.active &&
        whSub.events.contains NotificationType.task_assigned) = true := by
      decide
    rw [if_pos hc] at h1
    exact h1
  · have h1 := h.2.1 whOther (by decide)
    have hc : ¬((whOther.user_id == "u1" && whOther.active &&
        whOther.events.contains NotificationType.task_assigned) = true) := by
      decide
    rw [if_neg hc] at h1
    exact h1

def st5ex : AppState :=
  { notifications :=
      (List.range 5).map (fun i =>
        { id := i, user_id := "page-user", type := .task_assigned,
          channel := .in_app, title := "T", body := "B", metadata := [],
          read := false, created_at := i })
    notification_preferences := []
    webhooks := []
    webhook_deliveries := []
    sent_emails := []
    nextId := 5
    now := 5 }

/-- Witness for the C7 theorem at concrete inputs: the defaults kick in
for an empty query, and with 5 stored records page 1 of size 2 returns 2
items with total 5 and more pages, while page 3 returns the single last
item and no more pages. -/
theorem notificationList_pagination_contract_witness :
    (notificationList st5ex "page-user" {}).page = 1 ∧
    (notificationList st5ex "page-user" {}).pageSize = 20 ∧
    (notificationList st5ex "page-user"
      { page := some 1, pageSize := some 2 }).items.length = 2 ∧
    (notificationList st5ex "page-user"
      { page := some 1, pageSize := some 2 }).total = 5 ∧
    (notificationList st5ex "page-user"
      { page := some 1, pageSize := some 2 }).hasMore = true ∧
    (notificationList st5ex "page-user"
      { page := some 3, pageSize := some 2 }).items.length = 1 ∧
    (notificationList st5ex "page-user"
      { page := some 3, pageSize := some 2 }).hasMore = false :=
  ⟨(notificationList_pagination_contract st5ex "page-user"
      {}).2.2.2.2.1 rfl,
   (notificationList_pagination_contract st5ex "page-user"
      {}).2.2.2.2.2.1 rfl,
   by
     rw [(notificationList_pagination_contract st5ex "page-user"
       { page := some 1, pageSize := some 2 }).2.2.2.2.2.2.2.2.2]
     decide,
   by decide, by decide,
   by
     rw [(notificationList_pagination_contract st5ex "page-user"
       { page := some 3, pageSize := some 2 }).2.2.2.2.2.2.2.2.2]
     decide,
   by decide⟩
